import Mathlib

/-!
Verification of the `interprocess` local-socket core: the `Name` model
(`src/local_socket/name/inner.rs`), the tokio listener async-iterator view
(`src/local_socket/tokio/listener/enum.rs`), and FreeBSD-style peer
credential decoding (`src/os/unix/udsocket/credentials/freebsdlike.rs`).

Shallow embedding conventions:
- `Cow` models Rust's `std::borrow::Cow`: a tagged borrowed-or-owned buffer.
  String-like payloads (`U16CStr`, `OsStr`, `[u8]`) are modelled as `List Nat`
  of code units / bytes; their exact character structure is irrelevant to
  every claim here.
- `NameInner` carries the union of all conditionally-compiled variants
  (exactly as the four variants appear in the source under their `cfg`
  gates); `Target` selects which `Default` arm is compiled in.
- Machine integers: `c_short`/`c_int` counts are `Int` (they can be
  negative); uid/gid/pid values are `Nat` (their numeric width plays no
  role in the claims).
-/

/-- Model of Rust `std::borrow::Cow`: either a borrowed view or an owned
buffer over the same payload type. -/
inductive Cow (α : Type) where
  | borrowed (a : α)
  | owned (a : α)
deriving DecidableEq, Repr

namespace Cow

/-- Dereferencing a `Cow` (Rust's `Deref`): both variants expose the payload. -/
def get : Cow α → α
  | .borrowed a => a
  | .owned a => a

/-- Rust `Cow::into_owned`: extracts an owned copy of the payload. -/
def intoOwned (c : Cow α) : α := c.get

/-- Rust `Cow`'s `PartialEq`: compares the dereferenced payloads, ignoring
the borrowed/owned tag. -/
def valueEq [DecidableEq α] (a b : Cow α) : Bool := a.get = b.get

/-- Rust `Cow::default()`: an owned empty buffer (all payloads here are
list-like with empty default). -/
def emptyOwned : Cow (List Nat) := .owned []

end Cow

/-- `NameInner` from `src/local_socket/name/inner.rs`: the union of all
conditionally-compiled variants. `NamedPipe` is `cfg(windows)`;
`UdSocketPath`/`UdSocketPseudoNs` are `cfg(unix/wasmer)`; `UdSocketNs` is
`cfg(linux/android)`. -/
inductive NameInner where
  | NamedPipe (s : Cow (List Nat))
  | UdSocketPath (s : Cow (List Nat))
  | UdSocketPseudoNs (s : Cow (List Nat))
  | UdSocketNs (s : Cow (List Nat))
deriving DecidableEq, Repr

namespace NameInner

/-- `NameInner::is_namespaced` (inner.rs lines 49-60), arm for arm. -/
def is_namespaced : NameInner → Bool
  | .NamedPipe _ => true
  | .UdSocketPath _ => false
  | .UdSocketPseudoNs _ => false
  | .UdSocketNs _ => true

/-- `NameInner::is_path` (inner.rs lines 61-72), arm for arm. -/
def is_path : NameInner → Bool
  | .NamedPipe _ => true
  | .UdSocketPath _ => true
  | .UdSocketPseudoNs _ => false
  | .UdSocketNs _ => false

/-- Discriminator for the `NamedPipe` variant (used to state which variant
the classification queries coincide on). -/
def isNamedPipe : NameInner → Bool
  | .NamedPipe _ => true
  | _ => false

/-- `NameInner::borrow` (inner.rs line 75): `map_cow!` rebuilding the same
variant around `Cow::Borrowed(cow)`, where the borrow derefs to the payload. -/
def borrow : NameInner → NameInner
  | .NamedPipe c => .NamedPipe (.borrowed c.get)
  | .UdSocketPath c => .UdSocketPath (.borrowed c.get)
  | .UdSocketPseudoNs c => .UdSocketPseudoNs (.borrowed c.get)
  | .UdSocketNs c => .UdSocketNs (.borrowed c.get)

/-- `NameInner::into_owned` (inner.rs lines 77-79): `map_cow!` rebuilding the
same variant around `Cow::Owned(cow.into_owned())`. -/
def into_owned : NameInner → NameInner
  | .NamedPipe c => .NamedPipe (.owned c.intoOwned)
  | .UdSocketPath c => .UdSocketPath (.owned c.intoOwned)
  | .UdSocketPseudoNs c => .UdSocketPseudoNs (.owned c.intoOwned)
  | .UdSocketNs c => .UdSocketNs (.owned c.intoOwned)

/-- The `derive(PartialEq)` equality on `NameInner`: same variant and equal
`Cow` payloads under `Cow`'s content comparison (borrowed/owned state is
not observable through it). -/
def valueEq : NameInner → NameInner → Bool
  | .NamedPipe a, .NamedPipe b => Cow.valueEq a b
  | .UdSocketPath a, .UdSocketPath b => Cow.valueEq a b
  | .UdSocketPseudoNs a, .UdSocketPseudoNs b => Cow.valueEq a b
  | .UdSocketNs a, .UdSocketNs b => Cow.valueEq a b
  | _, _ => false

end NameInner

/-- Compilation targets relevant to `NameInner`'s `cfg` gates: `windows`
selects the `NamedPipe` arms, `unixLike` (unix or wasmer) the Unix arms. -/
inductive Target where
  | windows
  | unixLike
deriving DecidableEq, Repr

/-- `Default for NameInner` (inner.rs lines 20-31): `NamedPipe(Cow::default())`
on windows, `UdSocketPath(Cow::default())` on unix-like targets. -/
def defaultNameInner : Target → NameInner
  | .windows => .NamedPipe Cow.emptyOwned
  | .unixLike => .UdSocketPath Cow.emptyOwned

/-- Claim C1 (counterexample): on the `NamedPipe` variant, `is_path()` and
`is_namespaced()` are BOTH true, refuting the claimed mutual exclusion. -/
theorem c1_counterexample :
    NameInner.is_path (.NamedPipe Cow.emptyOwned) = true ∧
    NameInner.is_namespaced (.NamedPipe Cow.emptyOwned) = true := by
  exact ⟨rfl, rfl⟩

/-- Claim C1 (amended): `is_path()` and `is_namespaced()` are both true
exactly on the `NamedPipe` variant; on every other variant they are
mutually exclusive or both false. Stated equationally: their conjunction
equals the `NamedPipe` discriminator. -/
theorem c1_path_namespaced_overlap_iff_named_pipe (n : NameInner) :
    (n.is_path && n.is_namespaced) = n.isNamedPipe := by
  cases n <;> rfl

/-- Claim C5: `borrow()` and `into_owned()` preserve the variant, hence both
classification queries are stable under ownership conversion. -/
theorem c5_classification_stable_under_ownership (n : NameInner) :
    n.borrow.is_path = n.is_path ∧
    n.borrow.is_namespaced = n.is_namespaced ∧
    n.into_owned.is_path = n.is_path ∧
    n.into_owned.is_namespaced = n.is_namespaced := by
  cases n <;> exact ⟨rfl, rfl, rfl, rfl⟩

/-- Claim C6: `borrow()` followed by `into_owned()` round-trips to a value
equal to the original under the derived `PartialEq` on `NameInner` (which
compares payload content regardless of borrowed/owned state). -/
theorem c6_borrow_into_owned_roundtrip (n : NameInner) :
    NameInner.valueEq n.borrow.into_owned n = true := by
  cases n <;> simp [NameInner.borrow, NameInner.into_owned, NameInner.valueEq,
    Cow.valueEq, Cow.intoOwned, Cow.get]

/-- Claim C7: `into_owned()` is idempotent — a second application returns a
structurally identical value (same variant, same bytes, still owned). -/
theorem c7_into_owned_idempotent (n : NameInner) :
    n.into_owned.into_owned = n.into_owned := by
  cases n <;> rfl

/-- Claim C9: the default `NameInner` is the backend-appropriate empty name —
`NamedPipe` with an empty wide string on windows, `UdSocketPath` with an
empty path on unix-like targets — and `is_path()` holds for the default on
every target. -/
theorem c9_default_name :
    defaultNameInner .windows = .NamedPipe (Cow.owned []) ∧
    defaultNameInner .unixLike = .UdSocketPath (Cow.owned []) ∧
    ∀ t : Target, (defaultNameInner t).is_path = true := by
  refine ⟨rfl, rfl, ?_⟩
  intro t
  cases t <;> rfl

/-!
Peer credential decoding, `src/os/unix/udsocket/credentials/freebsdlike.rs`.

`cmcred_groups` is a fixed `[gid_t; 16]` inline array (`libc::CMGROUP_MAX =
16`); `sc_groups` is a declared `[gid_t; 1]` trailing array whose actual
extent is the kernel-provided buffer, so it is modelled as the list of gid
values present in that trailing memory. The `*const gid_packed` cursor cast
plus `gid_t::from_ne_bytes` round-trips each element's native-endian bytes
to the stored gid, so element reads are modelled directly as list lookups;
a read past the backing memory (undefined behavior in the source) surfaces
as `List.getD`'s default and is shown never to occur where claims need it.
-/

/-- `libc::CMGROUP_MAX`: the inline supplementary-group capacity of `cmsgcred`. -/
def CMGROUP_MAX : Int := 16

/-- `cmsgcred_packed` (freebsdlike.rs lines 113-123), Layout A: BSD implicit
process credentials. `cmcred_ngroups` is a `c_short` (may be negative). -/
structure cmsgcred_packed where
  cmcred_pid : Nat
  cmcred_uid : Nat
  cmcred_euid : Nat
  cmcred_gid : Nat
  cmcred_ngroups : Int
  __pad0 : Int
  cmcred_groups : List Nat
deriving DecidableEq, Repr

/-- `sockcred_packed` (freebsdlike.rs lines 138-148), Layout B: FreeBSD
`SO_PASSCRED` socket credentials. `sc_ngroups` is a `c_int`; `sc_groups`
is the variable-length trailing gid array as present in the buffer. -/
structure sockcred_packed where
  sc_uid : Nat
  sc_euid : Nat
  sc_gid : Nat
  sc_egid : Nat
  sc_ngroups : Int
  sc_groups : List Nat
deriving DecidableEq, Repr

/-- `Credentials` (freebsdlike.rs lines 7-12): a view over one of the two
layouts. -/
inductive Credentials where
  | Cmsgcred (c : cmsgcred_packed)
  | Sockcred (s : sockcred_packed)
deriving DecidableEq, Repr

/-- `Groups` (freebsdlike.rs lines 80-85): the bounded cursor over the gid
array. `cur`/`end_` are the element-indexed cursor and one-past-end
positions relative to the start of the gid memory `mem` (the `*const
gid_packed` pointers of the source, with `mem` the pointee memory). -/
structure Groups where
  cur : Nat
  end_ : Nat
  mem : List Nat
deriving DecidableEq, Repr

namespace Credentials

/-- `Credentials::euid` (freebsdlike.rs lines 14-20). -/
def euid : Credentials → Option Nat
  | .Cmsgcred c => some c.cmcred_euid
  | .Sockcred s => some s.sc_euid

/-- `Credentials::ruid` (freebsdlike.rs lines 21-27). -/
def ruid : Credentials → Option Nat
  | .Cmsgcred c => some c.cmcred_uid
  | .Sockcred s => some s.sc_uid

/-- `Credentials::egid` (freebsdlike.rs lines 28-34): absent on Layout A. -/
def egid : Credentials → Option Nat
  | .Cmsgcred _ => none
  | .Sockcred s => some s.sc_egid

/-- `Credentials::rgid` (freebsdlike.rs lines 35-41). -/
def rgid : Credentials → Option Nat
  | .Cmsgcred c => some c.cmcred_gid
  | .Sockcred s => some s.sc_gid

/-- `Credentials::pid` (freebsdlike.rs lines 42-48): absent on Layout B. -/
def pid : Credentials → Option Nat
  | .Cmsgcred c => some c.cmcred_pid
  | .Sockcred _ => none

/-- Discriminator: is this the Layout A (`Cmsgcred`) view. -/
def isCmsgcred : Credentials → Bool
  | .Cmsgcred _ => true
  | .Sockcred _ => false

/-- Discriminator: is this the Layout B (`Sockcred`) view. -/
def isSockcred : Credentials → Bool
  | .Cmsgcred _ => false
  | .Sockcred _ => true

/-- `Credentials::ptr_to_gids` (freebsdlike.rs lines 49-55): the start of the
gid memory — the inline `cmcred_groups` array for Layout A, the trailing
`sc_groups` memory for Layout B. -/
def ptr_to_gids : Credentials → List Nat
  | .Cmsgcred c => c.cmcred_groups
  | .Sockcred s => s.sc_groups

/-- `Credentials::groups` (freebsdlike.rs lines 56-74). Layout A clamps
`cmcred_ngroups` by `min(·, CMGROUP_MAX)`; Layout B takes `sc_ngroups`
as-is. The `.try_to::<usize>().unwrap()` aborts (`none`) exactly when the
resulting count is negative; otherwise the cursor is `(start, start + n)`. -/
def groups (cr : Credentials) : Option Groups :=
  let n : Int :=
    match cr with
    | .Cmsgcred c => min c.cmcred_ngroups CMGROUP_MAX
    | .Sockcred s => s.sc_ngroups
  if n < 0 then none
  else some { cur := 0, end_ := n.toNat, mem := cr.ptr_to_gids }

end Credentials

namespace Groups

/-- `Iterator::next for Groups` (freebsdlike.rs lines 88-98): if the cursor
reached the end, yield nothing and leave the state unchanged; otherwise
read the element at the cursor and advance by one. -/
def next (g : Groups) : Option Nat × Groups :=
  if g.cur ≥ g.end_ then (none, g)
  else (some (g.mem.getD g.cur 0), { g with cur := g.cur + 1 })

/-- `ExactSizeIterator::len for Groups` (freebsdlike.rs lines 104-109): the
pointer distance from cursor to end (never negative in reachable states,
matching the `offset_from ... as usize` of the source). -/
def len (g : Groups) : Nat := g.end_ - g.cur

/-- Driving the iterator `n` times: the list of yielded elements and the
final state (stops early if the iterator reports exhaustion). -/
def take : Nat → Groups → List Nat × Groups
  | 0, g => ([], g)
  | n + 1, g =>
    match g.next with
    | (none, g1) => ([], g1)
    | (some x, g1) =>
      let r := take n g1
      (x :: r.1, r.2)

/-- The full yield sequence of the iterator: driving it `len` times (after
which the cursor has reached the end). -/
def toList (g : Groups) : List Nat := (take g.len g).1

end Groups

/-- Trace characterization of the cursor iterator: as long as the one-past-end
position lies within the backing memory, driving the iterator `n` times
yields the slice of `mem` from the cursor, truncated to `n` elements. -/
theorem Groups.take_fst_eq (n : Nat) (g : Groups) (hle : g.end_ ≤ g.mem.length) :
    (Groups.take n g).1 = (g.mem.drop g.cur).take (min n (g.end_ - g.cur)) := by
  induction n generalizing g with
  | zero => simp [Groups.take]
  | succ n ih =>
    by_cases h : g.cur ≥ g.end_
    · have h0 : g.end_ - g.cur = 0 := Nat.sub_eq_zero_of_le h
      simp [Groups.take, Groups.next, h, h0]
    · have hlt : g.cur < g.end_ := Nat.lt_of_not_le h
      have hcur : g.cur < g.mem.length := Nat.lt_of_lt_of_le hlt hle
      have hih := ih { g with cur := g.cur + 1 } hle
      simp only [Groups.take, Groups.next, if_neg h, hih]
      rw [List.drop_eq_getElem_cons hcur, List.getD_eq_getElem g.mem 0 hcur]
      have hk : g.end_ - g.cur = (g.end_ - (g.cur + 1)) + 1 := by omega
      rw [hk, Nat.succ_min_succ, List.take_succ_cons]

/-- Layout A example from the spec: `cmcred_ngroups = 3`, first three inline
slots 100, 200, 300, remaining inline slots zeroed. -/
def cmExA : cmsgcred_packed :=
  { cmcred_pid := 1234, cmcred_uid := 1000, cmcred_euid := 1001,
    cmcred_gid := 1000, cmcred_ngroups := 3, __pad0 := 0,
    cmcred_groups := [100, 200, 300, 0, 0, 0, 0, 0, 0, 0, 0, 0, 0, 0, 0, 0] }

/-- Iterator state produced by `groups()` on `cmExA`. -/
def gA0 : Groups := { cur := 0, end_ := 3, mem := cmExA.cmcred_groups }

/-- `gA0` after one `next()`. -/
def gA1 : Groups := { cur := 1, end_ := 3, mem := cmExA.cmcred_groups }

/-- `gA1` after one `next()`. -/
def gA2 : Groups := { cur := 2, end_ := 3, mem := cmExA.cmcred_groups }

/-- `gA2` after one `next()` (exhausted: cursor reached end). -/
def gA3 : Groups := { cur := 3, end_ := 3, mem := cmExA.cmcred_groups }

/-- Claim C2: on the Layout A example buffer, `groups()` yields exactly
100, 200, 300; `len()` reads 3, 2, 1 before the successive yields and 0
after; and the exhausted state is a fixpoint of `next()` returning `none`,
so every further call yields nothing. -/
theorem c2_groups_concrete_trace :
    Credentials.groups (.Cmsgcred cmExA) = some gA0 ∧
    gA0.len = 3 ∧ gA0.next = (some 100, gA1) ∧
    gA1.len = 2 ∧ gA1.next = (some 200, gA2) ∧
    gA2.len = 1 ∧ gA2.next = (some 300, gA3) ∧
    gA3.len = 0 ∧ gA3.next = (none, gA3) := by
  decide

/-- Claim C3: Layout A clamps an oversized `cmcred_ngroups` to the inline
capacity — with a 16-slot inline array and a reported count above
`CMGROUP_MAX`, the full yield sequence is exactly the 16 inline slots (at
most the inline capacity, never reading past the inline array) — while
Layout B uses `sc_ngroups` as-is, with no clamp, as the element count. -/
theorem c3_count_clamping :
    (∀ (c : cmsgcred_packed) (g : Groups),
        c.cmcred_groups.length = 16 →
        CMGROUP_MAX < c.cmcred_ngroups →
        Credentials.groups (.Cmsgcred c) = some g →
        g.toList.length ≤ 16 ∧ g.toList = c.cmcred_groups) ∧
    (∀ (s : sockcred_packed) (g : Groups),
        0 ≤ s.sc_ngroups →
        Credentials.groups (.Sockcred s) = some g →
        g.len = s.sc_ngroups.toNat) := by
  constructor
  · intro c g hlen hbig hsome
    have hmin : min c.cmcred_ngroups CMGROUP_MAX = (16 : Int) := by
      simp only [CMGROUP_MAX] at hbig ⊢; omega
    have hneg : ¬ (min c.cmcred_ngroups CMGROUP_MAX < 0) := by
      simp only [CMGROUP_MAX]; omega
    simp only [Credentials.groups, if_neg hneg, Option.some.injEq] at hsome
    have hg : g = { cur := 0, end_ := 16, mem := c.cmcred_groups } := by
      rw [← hsome, hmin]; rfl
    subst hg
    have htr := Groups.take_fst_eq 16 { cur := 0, end_ := 16, mem := c.cmcred_groups }
      (by simpa using hlen.ge)
    simp only [List.drop_zero, Nat.sub_zero, Nat.min_self] at htr
    have : Groups.toList { cur := 0, end_ := 16, mem := c.cmcred_groups }
        = c.cmcred_groups := by
      simp only [Groups.toList, Groups.len, Nat.sub_zero, htr]
      rw [← hlen, List.take_length]
    rw [this]
    exact ⟨hlen.le, rfl⟩
  · intro s g hnn hsome
    have hneg : ¬ (s.sc_ngroups < 0) := by omega
    simp only [Credentials.groups, if_neg hneg, Option.some.injEq] at hsome
    rw [← hsome]
    rfl

/-- Layout A example with an oversized group count (20 > 16). -/
def cmExBig : cmsgcred_packed :=
  { cmcred_pid := 1, cmcred_uid := 2, cmcred_euid := 3, cmcred_gid := 4,
    cmcred_ngroups := 20, __pad0 := 0,
    cmcred_groups := [0, 1, 2, 3, 4, 5, 6, 7, 8, 9, 10, 11, 12, 13, 14, 15] }

/-- Iterator state produced by `groups()` on `cmExBig` (count clamped to 16). -/
def gBig : Groups := { cur := 0, end_ := 16, mem := cmExBig.cmcred_groups }

/-- Layout B example: `sc_ngroups = 2` with trailing groups 7, 8. -/
def scExB : sockcred_packed :=
  { sc_uid := 1000, sc_euid := 1001, sc_gid := 1000, sc_egid := 1002,
    sc_ngroups := 2, sc_groups := [7, 8] }

/-- Iterator state produced by `groups()` on `scExB`. -/
def gScB : Groups := { cur := 0, end_ := 2, mem := scExB.sc_groups }

/-- Claim C3 witness: the clamping theorem applied to the concrete oversized
Layout A buffer and the concrete Layout B buffer. -/
theorem c3_count_clamping_witness :
    (gBig.toList.length ≤ 16 ∧ gBig.toList = cmExBig.cmcred_groups) ∧
    gScB.len = scExB.sc_ngroups.toNat :=
  ⟨c3_count_clamping.1 cmExBig gBig (by decide) (by decide) (by decide),
   c3_count_clamping.2 scExB gScB (by decide) (by decide)⟩

/-- Claim C4: for every credentials view, `euid`, `ruid`, `rgid` are present
on both layouts; `egid` is present exactly on Layout B (`Sockcred`) and
`pid` exactly on Layout A (`Cmsgcred`); all accessors are total (no panic)
and absence is the explicit `none`, never a zero id. -/
theorem c4_field_presence (cr : Credentials) :
    cr.euid.isSome = true ∧ cr.ruid.isSome = true ∧ cr.rgid.isSome = true ∧
    cr.egid.isSome = cr.isSockcred ∧ cr.pid.isSome = cr.isCmsgcred := by
  cases cr <;> exact ⟨rfl, rfl, rfl, rfl, rfl⟩

/-- Claim C10: `groups()` succeeds (no abort) for every buffer of either
layout whose reported group count is non-negative, and aborts (the
`try_to::<usize>().unwrap()` panic, modelled as `none`) for every buffer
with a negative reported count — the `min` clamp only bounds from above. -/
theorem c10_groups_abort_iff_negative_count :
    (∀ c : cmsgcred_packed, 0 ≤ c.cmcred_ngroups →
        (Credentials.groups (.Cmsgcred c)).isSome = true) ∧
    (∀ s : sockcred_packed, 0 ≤ s.sc_ngroups →
        (Credentials.groups (.Sockcred s)).isSome = true) ∧
    (∀ c : cmsgcred_packed, c.cmcred_ngroups < 0 →
        Credentials.groups (.Cmsgcred c) = none) ∧
    (∀ s : sockcred_packed, s.sc_ngroups < 0 →
        Credentials.groups (.Sockcred s) = none) := by
  refine ⟨?_, ?_, ?_, ?_⟩
  · intro c h
    have hneg : ¬ (min c.cmcred_ngroups CMGROUP_MAX < 0) := by
      simp only [CMGROUP_MAX]; omega
    simp only [Credentials.groups]
    rw [if_neg hneg]
    rfl
  · intro s h
    have hneg : ¬ (s.sc_ngroups < 0) := by omega
    simp only [Credentials.groups]
    rw [if_neg hneg]
    rfl
  · intro c h
    have hneg : min c.cmcred_ngroups CMGROUP_MAX < 0 := by
      simp only [CMGROUP_MAX]; omega
    simp only [Credentials.groups]
    rw [if_pos hneg]
  · intro s h
    simp only [Credentials.groups]
    rw [if_pos h]

/-- Layout A example with a negative (corrupt) group count. -/
def cmExNeg : cmsgcred_packed :=
  { cmcred_pid := 1, cmcred_uid := 1, cmcred_euid := 1, cmcred_gid := 1,
    cmcred_ngroups := -2, __pad0 := 0,
    cmcred_groups := [0, 0, 0, 0, 0, 0, 0, 0, 0, 0, 0, 0, 0, 0, 0, 0] }

/-- Claim C10 witness: `groups()` succeeds on the non-negative example
buffer and aborts on the negative-count one. -/
theorem c10_groups_abort_iff_negative_count_witness :
    (Credentials.groups (.Cmsgcred cmExA)).isSome = true ∧
    Credentials.groups (.Cmsgcred cmExNeg) = none :=
  ⟨c10_groups_abort_iff_negative_count.1 cmExA (by decide),
   c10_groups_abort_iff_negative_count.2.2.1 cmExNeg (by decide)⟩

/-!
Tokio listener async-iterator view, `src/local_socket/tokio/listener/enum.rs`.

`mkenum!(Listener)` expands to the closed per-backend union (named-pipe
backend under `cfg(windows)`, Unix-domain-socket backend under `cfg(unix)`);
the native backend listener and stream objects are external handle
providers, modelled as wrapped opaque handles. `Poll` models
`std::task::Poll`; the accept future's poll outcome at the current instant
is the input to `poll_next`, which per the source is that outcome with
`.map(Some)` applied.
-/

/-- Model of `std::task::Poll`. -/
inductive Poll (α : Type) where
  | ready (a : α)
  | pending
deriving DecidableEq, Repr

/-- `Poll::map`. -/
def Poll.map (f : α → β) : Poll α → Poll β
  | .ready a => .ready (f a)
  | .pending => .pending

/-- An I/O error surfaced by a failed accept (opaque payload). -/
structure IoError where
  code : Nat
deriving DecidableEq, Repr

namespace Tokio

/-- Native named-pipe backend listener (external handle provider). -/
structure NpListener where
  handle : Nat
deriving DecidableEq, Repr

/-- Native Unix-domain-socket backend listener (external handle provider). -/
structure UdsListener where
  fd : Nat
deriving DecidableEq, Repr

/-- Unified stream produced by a successful accept (opaque handle). -/
structure Stream where
  handle : Nat
deriving DecidableEq, Repr

/-- `mkenum!(Listener)`: the closed union over the per-target backends. -/
inductive Listener where
  | namedPipe (l : NpListener)
  | udSocket (l : UdsListener)
deriving DecidableEq, Repr

/-- `AsyncIterator for Listener::poll_next` (enum.rs lines 139-147): polls the
pinned `accept` future and applies `.map(Some)` to the outcome, so a ready
result is always wrapped in `some`. The argument is the accept future's
poll outcome at this instant. -/
def poll_next (acceptPoll : Poll (Except IoError Stream)) :
    Poll (Option (Except IoError Stream)) :=
  acceptPoll.map some

/-- `FusedAsyncIterator for Listener::is_terminated` (enum.rs lines 148-153):
constantly `false`, whatever state the listener is in. -/
def is_terminated (_l : Listener) : Bool := false

end Tokio

/-- Claim C8: the async-iterator view never signals end-of-sequence — for
every poll outcome of the underlying accept future, `poll_next` never
returns `ready none` (every ready result is wrapped in `some`), and
`is_terminated` is `false` for every listener state. -/
theorem c8_never_terminates :
    (∀ p : Poll (Except IoError Tokio.Stream), Tokio.poll_next p ≠ Poll.ready none) ∧
    (∀ l : Tokio.Listener, Tokio.is_terminated l = false) := by
  constructor
  · intro p
    cases p with
    | ready a => simp [Tokio.poll_next, Poll.map]
    | pending => simp [Tokio.poll_next, Poll.map]
  · intro l
    rfl
